import Mathlib

/-!
Verification development for the vegetable-order backend (`src/app.js`).

The program is an Express + Mongoose application: three entity schemas
(Order, Cart, Checkout), one POST (create) and one GET (read-by-id) route
per entity, a `/health` liveness probe, and a startup routine that connects
to MongoDB once and exits the process on failure.

The embedding below models:
* request/response bodies and stored documents as a JSON value type;
* the Mongoose schema layer as an allow-list projection with type casting
  (schema-on-write: declared fields are extracted and cast, all other
  fields are dropped; values that cannot be cast raise an error that the
  handlers map to HTTP 500).  Mongoose itself is a third-party library
  outside this repository; its cast behaviour is modelled from the schema
  declarations in `src/app.js` and the spec's schema-on-write description.
  JSON numbers are modelled as integers, which suffices for every claim;
* MongoDB ObjectIds as 24-character hexadecimal strings over a store that
  assigns fresh numeric identifiers;
* each route handler as a pure function from request, storage outcome and
  store state to an HTTP response and a new store state.
-/

/-- JSON values, as delivered by `bodyParser.json()` and stored in MongoDB.
Objects are association lists of string keys. -/
inductive Json where
  | null : Json
  | str : String → Json
  | num : Int → Json
  | bool : Bool → Json
  | arr : List Json → Json
  | obj : List (String × Json) → Json

/-- Look up a key in a JSON object's field list (first match wins). -/
def lookupKey (k : String) : List (String × Json) → Option Json
  | [] => none
  | (k', v) :: rest => if k' = k then some v else lookupKey k rest

/-- The fields of a JSON object; any non-object has no fields.  JavaScript
destructuring `const \x7b name, ... \x7d = req.body` reads properties of
`req.body`, yielding `undefined` (here: `none`) when the body is not an
object or lacks the key. -/
def jsonFields : Json → List (String × Json)
  | .obj kvs => kvs
  | _ => []

/-- Property access on a JSON body, as JavaScript destructuring performs it:
`none` models `undefined`. -/
def topField (body : Json) (k : String) : Option Json :=
  lookupKey k (jsonFields body)

/-- Mongoose cast of a value to a `String` schema path: strings pass
through, numbers and booleans are stringified, `null` is kept, and
structured values fail with a cast error. -/
def castString : Json → Except String Json
  | .str s => .ok (.str s)
  | .num n => .ok (.str (toString n))
  | .bool b => .ok (.str (if b then "true" else "false"))
  | .null => .ok .null
  | .arr _ => .error "CastError: String"
  | .obj _ => .error "CastError: String"

/-- Mongoose cast of a value to a `Number` schema path: numbers pass
through, numeric strings are parsed, booleans become 0/1, `null` is kept,
and anything else (in particular objects) fails with a cast error. -/
def castNumber : Json → Except String Json
  | .num n => .ok (.num n)
  | .str s =>
    match s.toInt? with
    | some n => .ok (.num n)
    | none => .error "CastError: Number"
  | .bool b => .ok (.num (if b then 1 else 0))
  | .null => .ok .null
  | .arr _ => .error "CastError: Number"
  | .obj _ => .error "CastError: Number"

/-- Schema path types occurring in `src/app.js`: string paths, number
paths, nested objects with declared sub-fields, and arrays of subdocuments
with declared sub-fields. -/
inductive SchemaTy where
  | sStr : SchemaTy
  | sNum : SchemaTy
  | sObj : List (String × SchemaTy) → SchemaTy
  | sArr : List (String × SchemaTy) → SchemaTy

/-- Apply a value caster `cv` across a declared field list: each declared
key present in the input is cast, absent keys are skipped, and undeclared
input keys are dropped (Mongoose strict mode).  The first cast error
aborts the construction. -/
def castFs (cv : SchemaTy → Json → Except String Json) :
    List (String × SchemaTy) → List (String × Json) →
    Except String (List (String × Json))
  | [], _ => .ok []
  | (k, ty) :: rest, kvs =>
    match lookupKey k kvs with
    | none => castFs cv rest kvs
    | some v =>
      match cv ty v, castFs cv rest kvs with
      | .ok v', .ok r => .ok ((k, v') :: r)
      | .error e, _ => .error e
      | .ok _, .error e => .error e

/-- Cast every element of a subdocument array: objects are cast field-wise
against the element schema, `null` entries are kept, and scalar entries
fail. -/
def castEls (cv : SchemaTy → Json → Except String Json)
    (fs : List (String × SchemaTy)) : List Json → Except String (List Json)
  | [] => .ok []
  | x :: xs =>
    match
      (match x with
       | .obj kvs => Except.map Json.obj (castFs cv fs kvs)
       | .null => .ok .null
       | _ => .error "CastError: Embedded"),
      castEls cv fs xs with
    | .ok v, .ok r => .ok (v :: r)
    | .error e, _ => .error e
    | .ok _, .error e => .error e

/-- Mongoose cast of one value against one schema path, with a fuel bound
on nesting depth (the concrete schemas of `src/app.js` are at most three
levels deep, so any fuel above that is exact). -/
def castV : Nat → SchemaTy → Json → Except String Json
  | 0, _, _ => .error "CastError: depth"
  | n + 1, ty, v =>
    match ty, v with
    | .sStr, v => castString v
    | .sNum, v => castNumber v
    | .sObj fs, .obj kvs => Except.map Json.obj (castFs (castV n) fs kvs)
    | .sObj _, .null => .ok .null
    | .sObj _, _ => .error "CastError: Embedded"
    | .sArr fs, .arr xs => Except.map Json.arr (castEls (castV n) fs xs)
    | .sArr _, .null => .ok .null
    | .sArr _, _ => .error "CastError: Array"

/-- Allow-list projection across a declared field list: keep exactly the
declared keys that are present, projecting their values. -/
def projFs (pv : SchemaTy → Json → Json) :
    List (String × SchemaTy) → List (String × Json) → List (String × Json)
  | [], _ => []
  | (k, ty) :: rest, kvs =>
    match lookupKey k kvs with
    | none => projFs pv rest kvs
    | some v => (k, pv ty v) :: projFs pv rest kvs

/-- Allow-list projection of every element of a subdocument array. -/
def projEls (pv : SchemaTy → Json → Json)
    (fs : List (String × SchemaTy)) : List Json → List Json
  | [] => []
  | x :: xs =>
    (match x with
     | .obj kvs => Json.obj (projFs pv fs kvs)
     | v => v) :: projEls pv fs xs

/-- Allow-list projection of a value against a schema path: the subset of
the input covered by the schema's declared fields, values untouched. -/
def projectV : Nat → SchemaTy → Json → Json
  | 0, _, v => v
  | n + 1, ty, v =>
    match ty, v with
    | .sStr, v => v
    | .sNum, v => v
    | .sObj fs, .obj kvs => .obj (projFs (projectV n) fs kvs)
    | .sObj _, v => v
    | .sArr fs, .arr xs => .arr (projEls (projectV n) fs xs)
    | .sArr _, v => v

/-- Field-wise well-typedness: every declared field that is present has a
value of exactly the declared shape. -/
def wtFs (wv : SchemaTy → Json → Bool) :
    List (String × SchemaTy) → List (String × Json) → Bool
  | [], _ => true
  | (k, ty) :: rest, kvs =>
    (match lookupKey k kvs with
     | none => true
     | some v => wv ty v) && wtFs wv rest kvs

/-- Element-wise well-typedness of a subdocument array. -/
def wtEls (wv : SchemaTy → Json → Bool)
    (fs : List (String × SchemaTy)) : List Json → Bool
  | [] => true
  | x :: xs =>
    (match x with
     | .obj kvs => wtFs wv fs kvs
     | .null => true
     | _ => false) && wtEls wv fs xs

/-- A value is well typed for a schema path when the Mongoose cast is the
identity on it: strings for string paths, integers for number paths,
objects (or null) for nested paths, arrays of objects for subdocument
arrays, recursively. -/
def wellTypedV : Nat → SchemaTy → Json → Bool
  | 0, _, _ => false
  | n + 1, ty, v =>
    match ty, v with
    | .sStr, .str _ => true
    | .sStr, .null => true
    | .sStr, _ => false
    | .sNum, .num _ => true
    | .sNum, .null => true
    | .sNum, _ => false
    | .sObj fs, .obj kvs => wtFs (wellTypedV n) fs kvs
    | .sObj _, .null => true
    | .sObj _, _ => false
    | .sArr fs, .arr xs => wtEls (wellTypedV n) fs xs
    | .sArr _, .null => true
    | .sArr _, _ => false

/-- Fuel covering every schema in `src/app.js` (maximum nesting depth 3). -/
def fuelN : Nat := 12

/-- Nested `address` record of the Order schema (`src/app.js` lines 60-66). -/
def addressSchema : List (String × SchemaTy) :=
  [("flat_no", .sStr), ("area", .sStr), ("city", .sStr),
   ("state", .sStr), ("pincode", .sStr)]

/-- Nested `vegetables` record of the Order schema (`src/app.js` lines 67-78). -/
def vegetablesSchema : List (String × SchemaTy) :=
  [("brinjalQty", .sNum), ("tomatoQty", .sNum), ("carrotQty", .sNum),
   ("cucumberQty", .sNum), ("onionQty", .sNum), ("chilliQty", .sNum),
   ("spinachQuantity", .sNum), ("coriander", .sNum), ("Karvepaku", .sNum),
   ("pudina", .sNum)]

/-- `orderSchema` of `src/app.js` (lines 56-80). -/
def orderSchema : List (String × SchemaTy) :=
  [("name", .sStr), ("email", .sStr), ("phone", .sStr),
   ("address", .sObj addressSchema),
   ("vegetables", .sObj vegetablesSchema),
   ("totalCost", .sNum)]

/-- Line-item element schema shared by `cartSchema.items` and
`checkoutSchema.cart` (`src/app.js` lines 86-92 and 112-118). -/
def cartItemSchema : List (String × SchemaTy) :=
  [("name", .sStr), ("quantity", .sNum), ("totalCost", .sNum)]

/-- `cartSchema` of `src/app.js` (lines 85-94). -/
def cartSchema : List (String × SchemaTy) :=
  [("items", .sArr cartItemSchema), ("totalCartCost", .sNum)]

/-- Nested `customer` record of the Checkout schema (`src/app.js`
lines 100-111). -/
def customerSchema : List (String × SchemaTy) :=
  [("name", .sStr), ("email", .sStr), ("phone", .sStr),
   ("address", .sObj addressSchema)]

/-- `checkoutSchema` of `src/app.js` (lines 99-120). -/
def checkoutSchema : List (String × SchemaTy) :=
  [("customer", .sObj customerSchema),
   ("cart", .sArr cartItemSchema),
   ("cartTotal", .sNum)]

/-- Document construction performed by a create handler: destructure the
allow-listed top-level fields from the request body and apply the schema
cast (`new Model entries` followed by `save`).  Undeclared fields are
dropped; a cast failure is the error the handler's `catch` receives. -/
def buildDoc (schema : List (String × SchemaTy)) (body : Json) :
    Except String Json :=
  Except.map Json.obj (castFs (castV fuelN) schema (jsonFields body))

/-- Well-typedness of a whole request body for a schema: an object whose
present allow-listed fields all have the declared shapes. -/
def wellTypedBody (schema : List (String × SchemaTy)) (body : Json) : Bool :=
  match body with
  | .obj kvs => wtFs (wellTypedV fuelN) schema kvs
  | _ => false

/-- The subset of a request body covered by a schema's allow-list, values
untouched: what the round-trip property says comes back from a read. -/
def projectBody (schema : List (String × SchemaTy)) (body : Json) : Json :=
  .obj (projFs (projectV fuelN) schema (jsonFields body))

/-- Render one hexadecimal digit list of fixed width (most significant
first), as MongoDB renders ObjectIds. -/
def renderHex : Nat → Nat → List Char
  | 0, _ => []
  | k + 1, n => renderHex k (n / 16) ++ [Nat.digitChar (n % 16)]

/-- The 24-character hexadecimal ObjectId string assigned to the n-th
created document. -/
def renderId (n : Nat) : String := String.mk (renderHex 24 n)

/-- Value of one hexadecimal character, if any. -/
def hexVal? (c : Char) : Option Nat :=
  if '0' ≤ c ∧ c ≤ '9' then some (c.toNat - '0'.toNat)
  else if 'a' ≤ c ∧ c ≤ 'f' then some (c.toNat - 'a'.toNat + 10)
  else if 'A' ≤ c ∧ c ≤ 'F' then some (c.toNat - 'A'.toNat + 10)
  else none

/-- Accumulating hexadecimal parse; fails on the first non-hex character. -/
def parseHexAcc : List Char → Nat → Option Nat
  | [], acc => some acc
  | c :: cs, acc =>
    match hexVal? c with
    | some d => parseHexAcc cs (16 * acc + d)
    | none => none

/-- ObjectId parse, as `findById` performs before querying: exactly 24
hexadecimal characters, otherwise a CastError (`none`). -/
def parseId (s : String) : Option Nat :=
  if s.data.length = 24 then parseHexAcc s.data 0 else none

/-- The persistent store: one collection per Mongoose model, each a list of
(assigned identifier, stored document) pairs in insertion order, plus the
next identifier the storage layer will assign. -/
structure Store where
  orders : List (Nat × Json)
  carts : List (Nat × Json)
  checkouts : List (Nat × Json)
  nextId : Nat

/-- Identifier lookup in one collection (`Model.findById`). -/
def findIn : List (Nat × Json) → Nat → Option Json
  | [], _ => none
  | (i, d) :: rest, n => if i = n then some d else findIn rest n

/-- Store well-formedness: every identifier already assigned is below the
next fresh identifier (identifiers are unique, as MongoDB guarantees). -/
def Store.wf (st : Store) : Prop :=
  (∀ p ∈ st.orders, p.1 < st.nextId) ∧
  (∀ p ∈ st.carts, p.1 < st.nextId) ∧
  (∀ p ∈ st.checkouts, p.1 < st.nextId)

/-- Outcome of the single storage operation a handler performs: the write
or read either succeeds or fails with an error message. -/
inductive DbOutcome where
  | ok : DbOutcome
  | fail : String → DbOutcome

/-- An HTTP response: status code and JSON body. -/
structure HttpResponse where
  status : Nat
  body : Json

/-- The `res.status(500).json(\x7b error: err.message \x7d)` body. -/
def jsonError (msg : String) : Json := .obj [("error", .str msg)]

/-- The `res.status(404).json(\x7b message: ... \x7d)` body. -/
def jsonMessage (msg : String) : Json := .obj [("message", .str msg)]

/-- `GET /health` (`src/app.js` lines 28-30): unconditionally 200 with the
static payload, never touching the store or the storage connection. -/
def health (_db : DbOutcome) (st : Store) : HttpResponse × Store :=
  (⟨200, .obj [("status", .str "OK"), ("service", .str "vegetable-app")]⟩, st)

/-- `POST /order` (`src/app.js` lines 129-138): destructure the six
allow-listed fields, build and save the document; 201 with the new id on
success, 500 with the raw error message on any failure. -/
def postOrder (body : Json) (db : DbOutcome) (st : Store) :
    HttpResponse × Store :=
  match buildDoc orderSchema body with
  | .error e => (⟨500, jsonError e⟩, st)
  | .ok doc =>
    match db with
    | .fail msg => (⟨500, jsonError msg⟩, st)
    | .ok =>
      (⟨201, .obj [("message", .str "Order placed successfully!"),
                   ("orderId", .str (renderId st.nextId))]⟩,
       { st with orders := st.orders ++ [(st.nextId, doc)],
                 nextId := st.nextId + 1 })

/-- `GET /order/:id` (`src/app.js` lines 140-148): malformed id → the
CastError reaches the catch → 500; storage failure → 500; found → 200 with
the document; absent → 404. -/
def getOrder (idStr : String) (db : DbOutcome) (st : Store) :
    HttpResponse × Store :=
  match parseId idStr with
  | none => (⟨500, jsonError "CastError: ObjectId"⟩, st)
  | some n =>
    match db with
    | .fail msg => (⟨500, jsonError msg⟩, st)
    | .ok =>
      match findIn st.orders n with
      | some doc => (⟨200, doc⟩, st)
      | none => (⟨404, jsonMessage "Order not found"⟩, st)

/-- `POST /cart` (`src/app.js` lines 151-160). -/
def postCart (body : Json) (db : DbOutcome) (st : Store) :
    HttpResponse × Store :=
  match buildDoc cartSchema body with
  | .error e => (⟨500, jsonError e⟩, st)
  | .ok doc =>
    match db with
    | .fail msg => (⟨500, jsonError msg⟩, st)
    | .ok =>
      (⟨201, .obj [("message", .str "Cart data saved successfully!"),
                   ("cartId", .str (renderId st.nextId))]⟩,
       { st with carts := st.carts ++ [(st.nextId, doc)],
                 nextId := st.nextId + 1 })

/-- `GET /cart/:id` (`src/app.js` lines 162-170). -/
def getCart (idStr : String) (db : DbOutcome) (st : Store) :
    HttpResponse × Store :=
  match parseId idStr with
  | none => (⟨500, jsonError "CastError: ObjectId"⟩, st)
  | some n =>
    match db with
    | .fail msg => (⟨500, jsonError msg⟩, st)
    | .ok =>
      match findIn st.carts n with
      | some doc => (⟨200, doc⟩, st)
      | none => (⟨404, jsonMessage "Cart not found"⟩, st)

/-- `POST /checkout` (`src/app.js` lines 173-182). -/
def postCheckout (body : Json) (db : DbOutcome) (st : Store) :
    HttpResponse × Store :=
  match buildDoc checkoutSchema body with
  | .error e => (⟨500, jsonError e⟩, st)
  | .ok doc =>
    match db with
    | .fail msg => (⟨500, jsonError msg⟩, st)
    | .ok =>
      (⟨201, .obj [("message", .str "Checkout successful!"),
                   ("checkoutId", .str (renderId st.nextId))]⟩,
       { st with checkouts := st.checkouts ++ [(st.nextId, doc)],
                 nextId := st.nextId + 1 })

/-- `GET /checkout/:id` (`src/app.js` lines 184-192). -/
def getCheckout (idStr : String) (db : DbOutcome) (st : Store) :
    HttpResponse × Store :=
  match parseId idStr with
  | none => (⟨500, jsonError "CastError: ObjectId"⟩, st)
  | some n =>
    match db with
    | .fail msg => (⟨500, jsonError msg⟩, st)
    | .ok =>
      match findIn st.checkouts n with
      | some doc => (⟨200, doc⟩, st)
      | none => (⟨404, jsonMessage "Checkout not found"⟩, st)

/-- Result of process bootstrap. -/
inductive StartupResult where
  | proceed : StartupResult
  | exit : Nat → StartupResult

/-- `connectToDatabase` (`src/app.js` lines 35-49): one `mongoose.connect`
attempt; on success log and proceed, on failure `process.exit(1)` — no
retry, no backoff. -/
def connectToDatabase (outcome : Except String Unit) : StartupResult :=
  match outcome with
  | .ok _ => .proceed
  | .error _ => .exit 1

/-- The empty store, before any create has happened. -/
def emptyStore : Store := ⟨[], [], [], 0⟩

/-- A store holding one order, used to exercise the frame properties. -/
def oneOrderStore : Store := ⟨[(0, Json.obj [])], [], [], 1⟩

/-- The spec's concrete round-trip scenario body for `POST /order`. -/
def sampleOrderBody : Json :=
  .obj [("name", .str "A"), ("email", .str "a@x.com"), ("phone", .str "123"),
        ("address", .obj [("city", .str "X")]),
        ("vegetables", .obj [("tomatoQty", .num 2)]),
        ("totalCost", .num 40)]

/-! ### Cast is the identity on well-typed input -/

theorem castFs_of_wt {cv : SchemaTy → Json → Except String Json}
    {pv : SchemaTy → Json → Json} {wv : SchemaTy → Json → Bool}
    (h : ∀ ty v, wv ty v = true → cv ty v = .ok (pv ty v)) :
    ∀ fs kvs, wtFs wv fs kvs = true → castFs cv fs kvs = .ok (projFs pv fs kvs) := by
  intro fs
  induction fs with
  | nil => intro kvs _; rfl
  | cons p rest ih =>
    obtain ⟨k, ty⟩ := p
    intro kvs hw
    simp only [wtFs, Bool.and_eq_true] at hw
    obtain ⟨h1, h2⟩ := hw
    simp only [castFs, projFs]
    cases hl : lookupKey k kvs with
    | none => exact ih kvs h2
    | some v =>
      rw [hl] at h1
      simp only at h1 ⊢
      rw [h ty v h1, ih kvs h2]

theorem castEls_of_wt {cv : SchemaTy → Json → Except String Json}
    {pv : SchemaTy → Json → Json} {wv : SchemaTy → Json → Bool}
    (h : ∀ ty v, wv ty v = true → cv ty v = .ok (pv ty v))
    (fs : List (String × SchemaTy)) :
    ∀ xs, wtEls wv fs xs = true → castEls cv fs xs = .ok (projEls pv fs xs) := by
  intro xs
  induction xs with
  | nil => intro _; rfl
  | cons x rest ih =>
    intro hw
    simp only [wtEls, Bool.and_eq_true] at hw
    obtain ⟨h1, h2⟩ := hw
    simp only [castEls, projEls]
    cases x with
    | obj kvs =>
      simp only at h1 ⊢
      rw [castFs_of_wt h fs kvs h1, ih h2]
      rfl
    | null => simp only at h1 ⊢; rw [ih h2]
    | str s => exact absurd h1 (by simp)
    | num n => exact absurd h1 (by simp)
    | bool b => exact absurd h1 (by simp)
    | arr l => exact absurd h1 (by simp)

theorem castV_of_wt :
    ∀ n ty v, wellTypedV n ty v = true → castV n ty v = .ok (projectV n ty v) := by
  intro n
  induction n with
  | zero => intro ty v h; exact absurd h (by simp [wellTypedV])
  | succ n ih =>
    intro ty v h
    cases ty with
    | sStr =>
      cases v <;> simp_all [wellTypedV, castV, castString, projectV]
    | sNum =>
      cases v <;> simp_all [wellTypedV, castV, castNumber, projectV]
    | sObj fs =>
      cases v with
      | obj kvs =>
        simp only [wellTypedV] at h
        simp only [castV, projectV, castFs_of_wt ih fs kvs h]
        rfl
      | null => rfl
      | str s => exact absurd h (by simp [wellTypedV])
      | num m => exact absurd h (by simp [wellTypedV])
      | bool b => exact absurd h (by simp [wellTypedV])
      | arr l => exact absurd h (by simp [wellTypedV])
    | sArr fs =>
      cases v with
      | arr xs =>
        simp only [wellTypedV] at h
        simp only [castV, projectV, castEls_of_wt ih fs xs h]
        rfl
      | null => rfl
      | str s => exact absurd h (by simp [wellTypedV])
      | num m => exact absurd h (by simp [wellTypedV])
      | bool b => exact absurd h (by simp [wellTypedV])
      | obj l => exact absurd h (by simp [wellTypedV])

theorem buildDoc_of_wt {schema : List (String × SchemaTy)} {body : Json}
    (h : wellTypedBody schema body = true) :
    buildDoc schema body = .ok (projectBody schema body) := by
  cases body with
  | obj kvs =>
    simp only [wellTypedBody] at h
    simp only [buildDoc, projectBody, jsonFields,
      castFs_of_wt (castV_of_wt fuelN) schema kvs h]
    rfl
  | null => exact absurd h (by simp [wellTypedBody])
  | str s => exact absurd h (by simp [wellTypedBody])
  | num n => exact absurd h (by simp [wellTypedBody])
  | bool b => exact absurd h (by simp [wellTypedBody])
  | arr l => exact absurd h (by simp [wellTypedBody])

/-! ### ObjectId round trip -/

theorem length_renderHex : ∀ k n, (renderHex k n).length = k := by
  intro k
  induction k with
  | zero => intro n; rfl
  | succ k ih => intro n; simp [renderHex, ih]

theorem parseHexAcc_append :
    ∀ l1 l2 : List Char, ∀ acc,
      parseHexAcc (l1 ++ l2) acc =
        Option.bind (parseHexAcc l1 acc) (fun a => parseHexAcc l2 a) := by
  intro l1
  induction l1 with
  | nil => intro l2 acc; rfl
  | cons c cs ih =>
    intro l2 acc
    simp only [List.cons_append, parseHexAcc]
    cases hexVal? c with
    | none => rfl
    | some d => simp only; exact ih l2 (16 * acc + d)

theorem hexVal_digitChar (d : Nat) (h : d < 16) :
    hexVal? (Nat.digitChar d) = some d := by
  interval_cases d <;> decide

theorem parseHexAcc_renderHex :
    ∀ k n acc, n < 16 ^ k →
      parseHexAcc (renderHex k n) acc = some (acc * 16 ^ k + n) := by
  intro k
  induction k with
  | zero =>
    intro n acc h
    interval_cases n
    simp [renderHex, parseHexAcc]
  | succ k ih =>
    intro n acc h
    have h16 : n / 16 < 16 ^ k := by
      rw [Nat.div_lt_iff_lt_mul (by norm_num)]
      calc n < 16 ^ (k + 1) := h
        _ = 16 ^ k * 16 := by ring
    rw [renderHex, parseHexAcc_append _ _ acc, ih (n / 16) acc h16]
    simp only [Option.bind]
    rw [parseHexAcc, hexVal_digitChar (n % 16) (Nat.mod_lt _ (by norm_num))]
    simp only [parseHexAcc]
    congr 1
    conv_rhs => rw [← Nat.div_add_mod n 16]
    ring

theorem parseId_renderId (n : Nat) (h : n < 16 ^ 24) :
    parseId (renderId n) = some n := by
  have hd : (String.mk (renderHex 24 n)).data = renderHex 24 n := rfl
  rw [parseId, renderId, hd, length_renderHex, if_pos rfl,
    parseHexAcc_renderHex 24 n 0 h]
  simp

/-! ### Store lookup -/

theorem findIn_append_fresh :
    ∀ l : List (Nat × Json), ∀ n d, (∀ p ∈ l, p.1 ≠ n) →
      findIn (l ++ [(n, d)]) n = some d := by
  intro l
  induction l with
  | nil => intro n d _; simp [findIn]
  | cons p rest ih =>
    obtain ⟨i, dd⟩ := p
    intro n d h
    have hne : i ≠ n := h (i, dd) (by simp)
    simp only [List.cons_append, findIn, if_neg hne]
    exact ih n d (fun q hq => h q (by simp [hq]))

theorem findIn_mem :
    ∀ l : List (Nat × Json), ∀ n d, findIn l n = some d → (n, d) ∈ l := by
  intro l
  induction l with
  | nil => intro n d h; exact absurd h (by simp [findIn])
  | cons p rest ih =>
    obtain ⟨i, dd⟩ := p
    intro n d h
    simp only [findIn] at h
    by_cases hi : i = n
    · rw [if_pos hi] at h
      obtain rfl : dd = d := by simpa using h
      subst hi
      exact List.mem_cons_self _ _
    · rw [if_neg hi] at h
      exact List.mem_cons_of_mem _ (ih n d h)

/-! ### The create handlers read only the allow-listed fields -/

theorem castFs_ext (cv : SchemaTy → Json → Except String Json) :
    ∀ fs : List (String × SchemaTy), ∀ kvs1 kvs2 : List (String × Json),
      (∀ k ∈ fs.map Prod.fst, lookupKey k kvs1 = lookupKey k kvs2) →
      castFs cv fs kvs1 = castFs cv fs kvs2 := by
  intro fs
  induction fs with
  | nil => intro kvs1 kvs2 _; rfl
  | cons p rest ih =>
    obtain ⟨k, ty⟩ := p
    intro kvs1 kvs2 h
    have hk : lookupKey k kvs1 = lookupKey k kvs2 := h k (by simp)
    have hrest := ih kvs1 kvs2 (fun k' hk' => h k' (by simp [hk']))
    simp only [castFs, ← hk, hrest]

/-! ### Claim theorems -/

/-- C5: for every request and every storage-connectivity state, `GET /health`
returns HTTP 200 with exactly the fixed payload (status "OK", service
"vegetable-app") and touches neither the store nor the storage outcome. -/
theorem health_always_fixed_200 :
    ∀ (db : DbOutcome) (st : Store),
      health db st =
        (⟨200, .obj [("status", Json.str "OK"),
                     ("service", Json.str "vegetable-app")]⟩, st) := by
  intro db st
  rfl

/-- C9: startup performs exactly one connection attempt; on success it
proceeds, and on any failure the process exits immediately with code 1 —
there is no retry branch. -/
theorem connect_once_exit_on_failure :
    connectToDatabase (.ok ()) = .proceed ∧
    ∀ e, connectToDatabase (.error e) = .exit 1 :=
  ⟨rfl, fun _ => rfl⟩

/-- C4: for every malformed identifier (one the storage layer cannot parse
as an ObjectId) each Get-by-id handler returns HTTP 500 with an error body
and an unchanged store; the handlers are total functions, so no crash or
hang is possible. -/
theorem malformed_id_returns_500 :
    ∀ (s : String) (db : DbOutcome) (st : Store), parseId s = none →
      getOrder s db st = (⟨500, jsonError "CastError: ObjectId"⟩, st) ∧
      getCart s db st = (⟨500, jsonError "CastError: ObjectId"⟩, st) ∧
      getCheckout s db st = (⟨500, jsonError "CastError: ObjectId"⟩, st) := by
  intro s db st h
  refine ⟨?_, ?_, ?_⟩ <;> simp [getOrder, getCart, getCheckout, h]

/-- C4 witness: the identifier "not-an-objectid" is malformed and
`GET /order/:id` maps it to HTTP 500. -/
theorem malformed_id_returns_500_witness :
    parseId "not-an-objectid" = none ∧
    getOrder "not-an-objectid" .ok emptyStore =
      (⟨500, jsonError "CastError: ObjectId"⟩, emptyStore) :=
  ⟨rfl, (malformed_id_returns_500 "not-an-objectid" .ok emptyStore rfl).1⟩

/-- C3: for every well-formed identifier matching no stored record, each
Get-by-id handler returns HTTP 404 with a message body; in particular
`GET /cart/000000000000000000000000` against a store without that id
returns 404 with body containing message "Cart not found". -/
theorem wellformed_absent_id_404 :
    (∀ (s : String) (n : Nat) (st : Store), parseId s = some n →
      (findIn st.orders n = none →
        getOrder s .ok st = (⟨404, jsonMessage "Order not found"⟩, st)) ∧
      (findIn st.carts n = none →
        getCart s .ok st = (⟨404, jsonMessage "Cart not found"⟩, st)) ∧
      (findIn st.checkouts n = none →
        getCheckout s .ok st = (⟨404, jsonMessage "Checkout not found"⟩, st))) ∧
    getCart "000000000000000000000000" .ok emptyStore =
      (⟨404, jsonMessage "Cart not found"⟩, emptyStore) := by
  constructor
  · intro s n st hp
    refine ⟨?_, ?_, ?_⟩ <;> intro hf <;>
      simp [getOrder, getCart, getCheckout, hp, hf]
  · rfl

/-- C3 witness: the well-formed identifier of value 1 is absent from the
empty store and `GET /order/:id` returns 404 there. -/
theorem wellformed_absent_id_404_witness :
    parseId "000000000000000000000001" = some 1 ∧
    findIn emptyStore.orders 1 = none ∧
    getOrder "000000000000000000000001" .ok emptyStore =
      (⟨404, jsonMessage "Order not found"⟩, emptyStore) :=
  ⟨rfl, rfl,
    (wellformed_absent_id_404.1 "000000000000000000000001" 1 emptyStore rfl).1 rfl⟩

/-- C10: a request body whose allow-listed field `totalCost` holds a value
not castable to the schema-declared `Number` type (a nested object) makes
the storage write fail at cast time, so `POST /order` returns HTTP 500 and
stores nothing — creation does not accept arbitrarily shaped values in
allow-listed fields. -/
theorem wrong_shape_allowlisted_field_500 :
    ∀ st : Store,
      postOrder (Json.obj [("totalCost", Json.obj [("a", Json.num 1)])]) .ok st =
        (⟨500, jsonError "CastError: Number"⟩, st) := by
  intro st
  rfl

/-- C6: `POST /checkout` with an empty request body returns HTTP 201 with a
checkoutId (no required-field validation exists), and the stored Checkout
record is the empty document, whose `cartTotal` field is absent. -/
theorem checkout_empty_body_201 :
    ∀ st : Store,
      (postCheckout (Json.obj []) .ok st).1.status = 201 ∧
      topField (postCheckout (Json.obj []) .ok st).1.body "checkoutId" =
        some (.str (renderId st.nextId)) ∧
      (postCheckout (Json.obj []) .ok st).2.checkouts =
        st.checkouts ++ [(st.nextId, Json.obj [])] ∧
      topField (Json.obj []) "cartTotal" = none := by
  intro st
  exact ⟨rfl, rfl, rfl, rfl⟩

/-- C2: two request bodies that agree on the entity's fixed allow-list of
top-level fields (Order: name, email, phone, address, vegetables,
totalCost; Cart: items, totalCartCost; Checkout: customer, cart,
cartTotal) make the create handler construct and store identical records
and return identical responses — extra fields are dropped and the outcome
depends only on the allow-listed fields. -/
theorem create_depends_only_on_allowlist :
    ∀ (b1 b2 : Json) (db : DbOutcome) (st : Store),
      ((∀ k ∈ ["name", "email", "phone", "address", "vegetables", "totalCost"],
          topField b1 k = topField b2 k) →
        postOrder b1 db st = postOrder b2 db st) ∧
      ((∀ k ∈ ["items", "totalCartCost"], topField b1 k = topField b2 k) →
        postCart b1 db st = postCart b2 db st) ∧
      ((∀ k ∈ ["customer", "cart", "cartTotal"], topField b1 k = topField b2 k) →
        postCheckout b1 db st = postCheckout b2 db st) := by
  intro b1 b2 db st
  refine ⟨?_, ?_, ?_⟩ <;> intro h
  · have hkeys : orderSchema.map Prod.fst =
        ["name", "email", "phone", "address", "vegetables", "totalCost"] := rfl
    have hbd : buildDoc orderSchema b1 = buildDoc orderSchema b2 := by
      unfold buildDoc
      rw [castFs_ext (castV fuelN) orderSchema (jsonFields b1) (jsonFields b2)
        (fun k hk => h k (hkeys ▸ hk))]
    simp only [postOrder, hbd]
  · have hkeys : cartSchema.map Prod.fst = ["items", "totalCartCost"] := rfl
    have hbd : buildDoc cartSchema b1 = buildDoc cartSchema b2 := by
      unfold buildDoc
      rw [castFs_ext (castV fuelN) cartSchema (jsonFields b1) (jsonFields b2)
        (fun k hk => h k (hkeys ▸ hk))]
    simp only [postCart, hbd]
  · have hkeys : checkoutSchema.map Prod.fst = ["customer", "cart", "cartTotal"] := rfl
    have hbd : buildDoc checkoutSchema b1 = buildDoc checkoutSchema b2 := by
      unfold buildDoc
      rw [castFs_ext (castV fuelN) checkoutSchema (jsonFields b1) (jsonFields b2)
        (fun k hk => h k (hkeys ▸ hk))]
    simp only [postCheckout, hbd]

/-- C2 witness: a body with an extra `hacker` field creates exactly what
the body without it creates. -/
theorem create_depends_only_on_allowlist_witness :
    postOrder (Json.obj [("name", Json.str "A"), ("hacker", Json.str "x")])
      .ok emptyStore =
    postOrder (Json.obj [("name", Json.str "A")]) .ok emptyStore := by
  refine (create_depends_only_on_allowlist
    (Json.obj [("name", Json.str "A"), ("hacker", Json.str "x")])
    (Json.obj [("name", Json.str "A")]) .ok emptyStore).1 ?_
  intro k hk
  fin_cases hk <;> rfl

/-- C7: whenever the storage write fails, each create handler returns HTTP
500 carrying the underlying error message verbatim in the body's `error`
field, and the store is unchanged — no partial record is persisted. -/
theorem create_storage_failure_500 :
    ∀ (body : Json) (st : Store) (msg : String),
      (∀ doc, buildDoc orderSchema body = .ok doc →
        postOrder body (.fail msg) st = (⟨500, jsonError msg⟩, st)) ∧
      (∀ doc, buildDoc cartSchema body = .ok doc →
        postCart body (.fail msg) st = (⟨500, jsonError msg⟩, st)) ∧
      (∀ doc, buildDoc checkoutSchema body = .ok doc →
        postCheckout body (.fail msg) st = (⟨500, jsonError msg⟩, st)) := by
  intro body st msg
  refine ⟨?_, ?_, ?_⟩ <;> intro doc h <;>
    simp [postOrder, postCart, postCheckout, h]

/-- C7 witness: a failing write on `POST /order` with an empty body
returns 500 with the raw message and leaves the empty store empty. -/
theorem create_storage_failure_500_witness :
    buildDoc orderSchema (Json.obj []) = .ok (Json.obj []) ∧
    postOrder (Json.obj []) (.fail "connection lost") emptyStore =
      (⟨500, jsonError "connection lost"⟩, emptyStore) :=
  ⟨rfl, (create_storage_failure_500 (Json.obj []) emptyStore "connection lost").1
    (Json.obj []) rfl⟩

theorem getOrder_state_eq (s : String) (db : DbOutcome) (st : Store) :
    (getOrder s db st).2 = st := by
  rcases hp : parseId s with _ | n
  · simp [getOrder, hp]
  · rcases db with _ | m
    · rcases hf : findIn st.orders n with _ | d <;> simp [getOrder, hp, hf]
    · simp [getOrder, hp]

theorem getCart_state_eq (s : String) (db : DbOutcome) (st : Store) :
    (getCart s db st).2 = st := by
  rcases hp : parseId s with _ | n
  · simp [getCart, hp]
  · rcases db with _ | m
    · rcases hf : findIn st.carts n with _ | d <;> simp [getCart, hp, hf]
    · simp [getCart, hp]

theorem getCheckout_state_eq (s : String) (db : DbOutcome) (st : Store) :
    (getCheckout s db st).2 = st := by
  rcases hp : parseId s with _ | n
  · simp [getCheckout, hp]
  · rcases db with _ | m
    · rcases hf : findIn st.checkouts n with _ | d <;> simp [getCheckout, hp, hf]
    · simp [getCheckout, hp]

theorem postOrder_frame (body : Json) (db : DbOutcome) (st : Store) :
    (postOrder body db st).2.carts = st.carts ∧
    (postOrder body db st).2.checkouts = st.checkouts ∧
    ∀ p ∈ st.orders, p ∈ (postOrder body db st).2.orders := by
  rcases hb : buildDoc orderSchema body with e | doc
  · simp [postOrder, hb]
  · rcases db with _ | m
    · refine ⟨by simp [postOrder, hb], by simp [postOrder, hb], ?_⟩
      intro p hp
      simp only [postOrder, hb]
      exact List.mem_append_left _ hp
    · simp [postOrder, hb]

theorem postCart_frame (body : Json) (db : DbOutcome) (st : Store) :
    (postCart body db st).2.orders = st.orders ∧
    (postCart body db st).2.checkouts = st.checkouts ∧
    ∀ p ∈ st.carts, p ∈ (postCart body db st).2.carts := by
  rcases hb : buildDoc cartSchema body with e | doc
  · simp [postCart, hb]
  · rcases db with _ | m
    · refine ⟨by simp [postCart, hb], by simp [postCart, hb], ?_⟩
      intro p hp
      simp only [postCart, hb]
      exact List.mem_append_left _ hp
    · simp [postCart, hb]

theorem postCheckout_frame (body : Json) (db : DbOutcome) (st : Store) :
    (postCheckout body db st).2.orders = st.orders ∧
    (postCheckout body db st).2.carts = st.carts ∧
    ∀ p ∈ st.checkouts, p ∈ (postCheckout body db st).2.checkouts := by
  rcases hb : buildDoc checkoutSchema body with e | doc
  · simp [postCheckout, hb]
  · rcases db with _ | m
    · refine ⟨by simp [postCheckout, hb], by simp [postCheckout, hb], ?_⟩
      intro p hp
      simp only [postCheckout, hb]
      exact List.mem_append_left _ hp
    · simp [postCheckout, hb]

/-- C8: every Get-by-id handler leaves the store unchanged; every create
handler leaves the other two collections unchanged and only appends to its
own collection, preserving every existing record — the lifecycle is
create-once read-many, with no update and no delete. -/
theorem create_read_frame :
    (∀ (s : String) (db : DbOutcome) (st : Store),
      (getOrder s db st).2 = st ∧ (getCart s db st).2 = st ∧
      (getCheckout s db st).2 = st) ∧
    (∀ (body : Json) (db : DbOutcome) (st : Store),
      ((postOrder body db st).2.carts = st.carts ∧
       (postOrder body db st).2.checkouts = st.checkouts ∧
       ∀ p ∈ st.orders, p ∈ (postOrder body db st).2.orders) ∧
      ((postCart body db st).2.orders = st.orders ∧
       (postCart body db st).2.checkouts = st.checkouts ∧
       ∀ p ∈ st.carts, p ∈ (postCart body db st).2.carts) ∧
      ((postCheckout body db st).2.orders = st.orders ∧
       (postCheckout body db st).2.carts = st.carts ∧
       ∀ p ∈ st.checkouts, p ∈ (postCheckout body db st).2.checkouts)) := by
  constructor
  · intro s db st
    exact ⟨getOrder_state_eq s db st, getCart_state_eq s db st,
      getCheckout_state_eq s db st⟩
  · intro body db st
    exact ⟨postOrder_frame body db st, postCart_frame body db st,
      postCheckout_frame body db st⟩

/-- C8 witness: a read leaves a one-order store unchanged, and a create
preserves the existing order record. -/
theorem create_read_frame_witness :
    (getOrder "000000000000000000000000" .ok oneOrderStore).2 = oneOrderStore ∧
    (0, Json.obj []) ∈ (postOrder (Json.obj []) .ok oneOrderStore).2.orders :=
  ⟨(create_read_frame.1 "000000000000000000000000" .ok oneOrderStore).1,
   (create_read_frame.2 (Json.obj []) .ok oneOrderStore).1.2.2
     (0, Json.obj []) (by simp [oneOrderStore])⟩

/-- C1: for every well-typed payload of allow-listed fields for an entity
(Order, Cart, or Checkout), Create returns 201 with the new identifier,
and Get-by-id with that identifier yields HTTP 200 with a record whose
fields are exactly the subset of the input fields covered by that entity's
allow-list. -/
theorem create_then_get_roundtrip :
    ∀ (body : Json) (st : Store), Store.wf st → st.nextId < 16 ^ 24 →
      (wellTypedBody orderSchema body = true →
        (postOrder body .ok st).1.status = 201 ∧
        topField (postOrder body .ok st).1.body "orderId" =
          some (.str (renderId st.nextId)) ∧
        (getOrder (renderId st.nextId) .ok (postOrder body .ok st).2).1 =
          ⟨200, projectBody orderSchema body⟩) ∧
      (wellTypedBody cartSchema body = true →
        (postCart body .ok st).1.status = 201 ∧
        topField (postCart body .ok st).1.body "cartId" =
          some (.str (renderId st.nextId)) ∧
        (getCart (renderId st.nextId) .ok (postCart body .ok st).2).1 =
          ⟨200, projectBody cartSchema body⟩) ∧
      (wellTypedBody checkoutSchema body = true →
        (postCheckout body .ok st).1.status = 201 ∧
        topField (postCheckout body .ok st).1.body "checkoutId" =
          some (.str (renderId st.nextId)) ∧
        (getCheckout (renderId st.nextId) .ok (postCheckout body .ok st).2).1 =
          ⟨200, projectBody checkoutSchema body⟩) := by
  intro body st hwf hlt
  have hpid : parseId (renderId st.nextId) = some st.nextId :=
    parseId_renderId st.nextId hlt
  refine ⟨?_, ?_, ?_⟩ <;> intro hwt <;> have hb := buildDoc_of_wt hwt
  · have hfind : findIn (st.orders ++ [(st.nextId, projectBody orderSchema body)])
        st.nextId = some (projectBody orderSchema body) :=
      findIn_append_fresh st.orders st.nextId _
        (fun p hp => Nat.ne_of_lt (hwf.1 p hp))
    refine ⟨?_, ?_, ?_⟩
    · simp [postOrder, hb]
    · simp only [postOrder, hb]
      rfl
    · simp only [postOrder, hb]
      simp [getOrder, hpid, hfind]
  · have hfind : findIn (st.carts ++ [(st.nextId, projectBody cartSchema body)])
        st.nextId = some (projectBody cartSchema body) :=
      findIn_append_fresh st.carts st.nextId _
        (fun p hp => Nat.ne_of_lt (hwf.2.1 p hp))
    refine ⟨?_, ?_, ?_⟩
    · simp [postCart, hb]
    · simp only [postCart, hb]
      rfl
    · simp only [postCart, hb]
      simp [getCart, hpid, hfind]
  · have hfind : findIn (st.checkouts ++ [(st.nextId, projectBody checkoutSchema body)])
        st.nextId = some (projectBody checkoutSchema body) :=
      findIn_append_fresh st.checkouts st.nextId _
        (fun p hp => Nat.ne_of_lt (hwf.2.2 p hp))
    refine ⟨?_, ?_, ?_⟩
    · simp [postCheckout, hb]
    · simp only [postCheckout, hb]
      rfl
    · simp only [postCheckout, hb]
      simp [getCheckout, hpid, hfind]

/-- C1 witness: the spec's concrete order scenario against the empty
store — create, then read back the projected record. -/
theorem create_then_get_roundtrip_witness :
    Store.wf emptyStore ∧ emptyStore.nextId < 16 ^ 24 ∧
    wellTypedBody orderSchema sampleOrderBody = true ∧
    (getOrder (renderId emptyStore.nextId) .ok
        (postOrder sampleOrderBody .ok emptyStore).2).1 =
      ⟨200, projectBody orderSchema sampleOrderBody⟩ := by
  have hwf : Store.wf emptyStore :=
    ⟨by simp [emptyStore], by simp [emptyStore], by simp [emptyStore]⟩
  have hlt : emptyStore.nextId < 16 ^ 24 := by norm_num [emptyStore]
  exact ⟨hwf, hlt, rfl,
    ((create_then_get_roundtrip sampleOrderBody emptyStore hwf hlt).1 rfl).2.2⟩
